import Mathlib

/-!
# Verification of the DATIS SRS client against its specification

This file shallowly embeds the parts of the DATIS repository that the
specification's claims are about:

* `crates/srs/src/voice_stream.rs` — the session driver (`VoiceStream`):
  the handshake messages, server-settings latching, the position-update
  timer arm, the `VersionMismatch` handling, the shutdown arm, the
  outbound voice sink (`start_send`), and `poll_next`.
* `crates/srs/src/client.rs` — the `Client` record.
* `crates/datis-module/src/mission.rs` — the ATIS station extraction
  (briefing frequencies and unit-name directives claiming airfields) and
  the MHz→Hz numeric conversions (`f32` in the briefing/broadcast paths,
  `f64` in the ATIS/CARRIER/WEATHER directive paths).

Machine floats are embedded exactly: a float is a dyadic pair of
mantissa and exponent, and `roundPair prec num den` is the IEEE
round-to-nearest-even of `num / den` at a `prec`-bit significand (24
for `f32`, 53 for `f64`); Rust's `from_str` parses are correctly
rounded, so the numeric paths are reproduced bit-for-bit on the inputs
in scope.
-/

namespace DATIS

/-! ## Exact embedding of IEEE binary floating point

Floating-point values are represented exactly: a float is a dyadic pair
`(m, e)` of mantissa and exponent with value `m * 2 ^ e`, and rounding a
positive fraction `num / den` to a `prec`-bit significand (round to
nearest, ties to even — the IEEE default used by Rust's float parsing,
multiplication and casts) is implemented with plain natural-number
arithmetic so that concrete instances evaluate in the kernel.
`prec = 24` is IEEE binary32 (`f32`), `prec = 53` is binary64 (`f64`);
neither subnormals nor overflow can occur on the values in scope. -/

/-- Round the fraction `num / den` (with `den > 0`) to the nearest
natural number, ties to even. -/
def rneFrac (num den : ℕ) : ℕ :=
  let f := num / den
  let r := num % den
  if 2 * r < den then f
  else if den < 2 * r then f + 1
  else if f % 2 = 0 then f else f + 1

/-- Fuelled base-2 logarithm (structural recursion, so that concrete
instances reduce in the kernel). -/
def natLog2Fuel : ℕ → ℕ → ℕ
  | 0, _ => 0
  | fuel + 1, n => if n < 2 then 0 else natLog2Fuel fuel (n / 2) + 1

/-- `⌊log₂ n⌋` for `n ≥ 1` (0 at 0). -/
def natLog2 (n : ℕ) : ℕ := natLog2Fuel n n

/-- Round the fraction `num / den ≥ 1` (with `den > 0`) to a float with
a `prec`-bit significand, returned as an exact dyadic pair
`(mantissa, exponent)`. -/
def roundPair (prec num den : ℕ) : ℕ × ℤ :=
  let k := natLog2 (num / den)
  if k + 1 ≤ prec then
    let s := prec - 1 - k
    (rneFrac (num * 2 ^ s) den, -(s : ℤ))
  else
    let s := k + 1 - prec
    (rneFrac num (den * 2 ^ s), (s : ℤ))

/-- The exact rational value of a dyadic pair. -/
def pairValue (p : ℕ × ℤ) : ℚ := (p.1 : ℚ) * (2 : ℚ) ^ p.2

/-- `as u64` on a positive float: truncate the dyadic value toward zero. -/
def pairFloor (p : ℕ × ℤ) : ℕ :=
  match p.2 with
  | Int.ofNat s => p.1 * 2 ^ s
  | Int.negSucc s => p.1 / 2 ^ (s + 1)

/-- Multiply a dyadic float by the exact constant `1_000_000.0`,
returned as a fraction (the product is formed exactly and only then
rounded, as IEEE multiplication prescribes). -/
def mulMillion (p : ℕ × ℤ) : ℕ × ℕ :=
  match p.2 with
  | Int.ofNat s => (p.1 * 1000000 * 2 ^ s, 1)
  | Int.negSucc s => (p.1 * 1000000, 2 ^ (s + 1))

/-- The `(float::from_str(s).unwrap() * 1_000_000.0) as u64` conversion
at significand width `prec`, for a `<FreqMHz>` literal denoting
`milli / 1000` MHz: correctly-rounded parse, rounded multiplication by
`1_000_000.0`, truncating cast. -/
def mhzToHz (prec milli : ℕ) : ℕ :=
  let p1 := roundPair prec milli 1000
  let f2 := mulMillion p1
  let p2 := roundPair prec f2.1 f2.2
  pairFloor p2

/-- The `f32` conversion path: used by both loops of
`extract_atis_station_frequencies` (the mission-briefing extractor) and
by `extract_custom_broadcast_config` (the BROADCAST directive). -/
def briefingMhzToHz (milli : ℕ) : ℕ := mhzToHz 24 milli

/-- The `f64` conversion path: used by `extract_atis_station_config`,
`extract_carrier_station_config` and `extract_weather_station_config`
(the ATIS / CARRIER / WEATHER unit-name directives). -/
def configMhzToHz (milli : ℕ) : ℕ := mhzToHz 53 milli

/-- Rust's `u64 as f64` cast: round to nearest binary64. -/
def u64ToF64 (n : ℕ) : ℚ := pairValue (roundPair 53 n 1)

/-! ## Data model of the SRS client (`crates/srs/src/client.rs`)

The shared `Arc<RwLock<LatLngPosition>>` is embedded as the value of its
current snapshot: every read in the driver goes through
`client.position()`, which clones the value under the read lock, so a
pure field faithfully represents one consistent snapshot. -/

/-- `LatLngPosition` (declared in the srs crate's message module; its
three `f64` fields are embedded as rationals, no arithmetic is performed
on them in the code under scrutiny — they are only copied and compared). -/
structure LatLngPosition where
  lat : ℚ
  lng : ℚ
  alt : ℚ
deriving DecidableEq

/-- `UnitInfo` from `client.rs`. -/
structure UnitInfo where
  id : ℕ
  name : String
deriving DecidableEq

/-- `Client` from `client.rs`: `sguid`, display `name`, frequency in Hz
(`u64`), modulation string `m`, current position snapshot, optional
bound unit. -/
structure Client where
  sguid : String
  name : String
  freq : ℕ
  m : String
  pos : LatLngPosition
  unit : Option UnitInfo
deriving DecidableEq

/-! ## Control messages (`crates/srs/src/message.rs`, used by
`voice_stream.rs`) -/

/-- Modelled from the spec: the `Coalition` enumeration lives in the srs
crate's message module, which is not under `src/`; the spec names `Blue`
and the code only ever constructs `Coalition::Blue`. -/
inductive Coalition where
  | blue
  | red
deriving DecidableEq

/-- Modelled from the spec: the control-message tag set is declared in
the srs crate's message module, absent from `src/`; the spec gives the
union {Sync, Update, RadioUpdate, VersionMismatch, ServerSettings, …},
with `other` standing for the remaining unnamed kinds. -/
inductive MsgType where
  | sync
  | update
  | radioUpdate
  | versionMismatch
  | serverSettings
  | other
deriving DecidableEq

/-- Modelled from the spec: one of the ten configured receive/transmit
radio slots advertised in a `RadioUpdate`.  The slot record is declared
in the srs crate's message module, absent from `src/`; only the count of
default slots matters to the claims, so its fields are left out. -/
structure Radio where
deriving DecidableEq

/-- `Radio::default()`. -/
def Radio.default : Radio := {}

/-- Modelled from the spec: the control-mode enumeration; the client
only ever uses `Hotas`, all remaining modes are collapsed into
`notHotas`. -/
inductive RadioSwitchControls where
  | hotas
  | notHotas
deriving DecidableEq

/-- `RadioInfo` as populated by `voice_stream.rs` (declaration in the
message module, every field is set explicitly at the use sites under
`src/`). -/
structure RadioInfo where
  name : String
  ptt : Bool
  radios : List Radio
  control : RadioSwitchControls
  selected : ℕ
  unit : String
  unit_id : ℕ
  simultaneous_transmission : Bool
deriving DecidableEq

/-- The `Client` payload of a control message (`MsgClient` in
`voice_stream.rs`). -/
structure MsgClient where
  client_guid : String
  name : Option String
  coalition : Coalition
  radio_info : Option RadioInfo
  lat_lng_position : Option LatLngPosition
deriving DecidableEq

/-- A JSON control message; `server_settings` is the optional string map
latched by the driver. -/
structure Message where
  client : Option MsgClient
  msg_type : MsgType
  server_settings : Option (List (String × String))
  version : String
deriving DecidableEq

/-- `SRS_VERSION` from `voice_stream.rs`. -/
def SRS_VERSION : String := "1.9.0.0"

/-- `create_sync_message` from `voice_stream.rs`. -/
def create_sync_message (client : Client) : Message :=
  { client := some
      { client_guid := client.sguid
        name := some client.name
        coalition := Coalition.blue
        radio_info := none
        lat_lng_position := some client.pos }
    msg_type := MsgType.sync
    server_settings := none
    version := SRS_VERSION }

/-- `create_radio_update_message` from `voice_stream.rs`: the full
radio-info block with 10 default radio slots, control mode `Hotas`,
`selected = 0`, `simultaneous_transmission = true`, coalition `Blue`,
and unit name/id from the binding with fallback to the client name /
unit id 0. -/
def create_radio_update_message (client : Client) : Message :=
  { client := some
      { client_guid := client.sguid
        name := some client.name
        coalition := Coalition.blue
        radio_info := some
          { name := "DATIS Radios"
            ptt := false
            radios := List.replicate 10 Radio.default
            control := RadioSwitchControls.hotas
            selected := 0
            unit := (client.unit.map (fun u => u.name)).getD client.name
            unit_id := (client.unit.map (fun u => u.id)).getD 0
            simultaneous_transmission := true }
        lat_lng_position := some client.pos }
    msg_type := MsgType.radioUpdate
    server_settings := none
    version := SRS_VERSION }

/-- `create_update_message` from `voice_stream.rs`. -/
def create_update_message (client : Client) : Message :=
  { client := some
      { client_guid := client.sguid
        name := some client.name
        coalition := Coalition.blue
        radio_info := none
        lat_lng_position := some client.pos }
    msg_type := MsgType.update
    server_settings := none
    version := SRS_VERSION }

/-- The ordered burst of control messages written by the heartbeat
before its timers are created and before the select loop is entered
(`VoiceStream::new`: the two `messages_sink.send(...)` awaits at the top
of the `heartbeat` async block). -/
def startupMessages (client : Client) : List Message :=
  [create_sync_message client, create_radio_update_message client]

/-! ## Voice packets and the outbound voice sink
(`crates/srs/src/voice_stream.rs`, `Sink<Vec<u8>> for VoiceStream`) -/

/-- Modulation kind; the source chooses FM over AM by comparing the raw
modulation string to `"FM"`. -/
inductive Modulation where
  | am
  | fm
deriving DecidableEq

/-- Modelled from the spec: encryption marker of a frequency entry; the
client always stamps `None`. -/
inductive Encryption where
  | none
  | enabled
deriving DecidableEq

/-- One frequency entry of a voice packet; `freq` is the `f64` written
onto the wire. -/
structure Frequency where
  freq : ℚ
  modulation : Modulation
  encryption : Encryption
deriving DecidableEq

/-- `VoicePacket` from the srs voice codec as populated by `start_send`;
the 22-byte sguid arrays are embedded as the ASCII strings they are
cloned from. -/
structure VoicePacket where
  audio_part : List ℕ
  frequencies : List Frequency
  unit_id : ℕ
  packet_id : ℕ
  hop_count : ℕ
  transmission_sguid : String
  client_sguid : String
deriving DecidableEq

/-- `<VoiceStream as Sink<Vec<u8>>>::start_send`: wrap one chunk of
audio bytes into a `VoicePacket` stamped with the session identity and
the current `packet_id`, then bump the counter with wrap-around at
`2 ^ 64` (`u64::wrapping_add`). -/
def startSend (client : Client) (item : List ℕ) (packet_id : ℕ) :
    VoicePacket × ℕ :=
  let m := if client.m = "FM" then Modulation.fm else Modulation.am
  let packet : VoicePacket :=
    { audio_part := item
      frequencies := [{ freq := u64ToF64 client.freq
                        modulation := m
                        encryption := Encryption.none }]
      unit_id := (client.unit.map (fun u => u.id)).getD 0
      packet_id := packet_id
      hop_count := 0
      transmission_sguid := client.sguid
      client_sguid := client.sguid }
  (packet, (packet_id + 1) % 2 ^ 64)

/-- Submitting a list of audio chunks to the sink one after another,
starting from the given `packet_id` state (`VoiceStream::new`
initialises the state to 1). -/
def sinkRun (client : Client) (chunks : List (List ℕ)) (packet_id : ℕ) :
    List VoicePacket × ℕ :=
  match chunks with
  | [] => ([], packet_id)
  | a :: rest =>
    let s := startSend client a packet_id
    let r := sinkRun client rest s.2
    (s.1 :: r.1, r.2)

/-! ## Server settings latching and inbound control messages
(`voice_stream.rs`, the `messages_stream.next()` select arm) -/

/-- `ServerSettingsInner`: the two atomically-latched toggles. -/
structure ServerSettings where
  los_enabled : Bool
  distance_enabled : Bool
deriving DecidableEq

/-- The two `store`s performed when a control message carries a
`server_settings` map: `LOS_ENABLED` is compared case-sensitively to the
literal `"True"`, `DISTANCE_ENABLED` to the literal `"true"`. -/
def latchServerSettings (settings : List (String × String)) : ServerSettings :=
  { los_enabled := settings.lookup "LOS_ENABLED" == some "True"
    distance_enabled := settings.lookup "DISTANCE_ENABLED" == some "true" }

/-- The settings state after an inbound control message: latched from
the carried map when present, untouched otherwise. -/
def settingsAfterMessage (msg : Message) (s : ServerSettings) : ServerSettings :=
  match msg.server_settings with
  | some settings => latchServerSettings settings
  | none => s

/-- The error string built by the `VersionMismatch` arm
(`anyhow!("Version mismatch between DATIS ({}) and the SRS server ({})", ...)`). -/
def versionMismatchError (serverVersion : String) : String :=
  "Version mismatch between DATIS (" ++ SRS_VERSION ++
    ") and the SRS server (" ++ serverVersion ++ ")"

/-- The `messages_stream.next()` select arm for one inbound message:
latch server settings, then fail on `VersionMismatch` and discard every
other message kind.  The returned pair is the settings state (updated
even when the message is terminal — the stores happen before the match)
and the error carried out of the driver loop, if any. -/
def handleControlMessage (msg : Message) (s : ServerSettings) :
    ServerSettings × Option String :=
  let s := settingsAfterMessage msg s
  match msg.msg_type with
  | MsgType.versionMismatch => (s, some (versionMismatchError msg.version))
  | _ => (s, none)

/-- `s` contains `sub` as a contiguous substring (on the underlying
character lists). -/
def strContains (s sub : String) : Prop :=
  ∃ l r : List Char, s.data = l ++ sub.data ++ r

/-! ## The position-update timer arm (`voice_stream.rs`,
`position_update_interval.next()`) -/

/-- `send_client_position_updates = game_source.is_none()` from
`VoiceStream::new`; the game source itself is irrelevant to the claims,
only its presence matters. -/
def sendClientPositionUpdates (game_source : Option Unit) : Bool :=
  game_source.isNone

/-- One position-update timer tick: skip unless the session was created
without a game source; then read a fresh position snapshot and the two
server toggles, and emit an `Update` message exactly when at least one
toggle is set and the snapshot differs from the one at the last send
(`old_pos`, initialised to the position at session start).  Returns the
emitted message, if any, and the new `old_pos` state. -/
def positionTick (client : Client) (send_client_position_updates : Bool)
    (los_enabled distance_enabled : Bool) (old_pos : LatLngPosition) :
    Option Message × LatLngPosition :=
  if send_client_position_updates = false then (none, old_pos)
  else if (los_enabled || distance_enabled) = true ∧ client.pos ≠ old_pos then
    (some (create_update_message client), client.pos)
  else
    (none, old_pos)

/-! ## The shutdown arm and the heartbeat result (`voice_stream.rs`)

The shutdown arm is the single Rust statement
`messages_sink.into_inner().shutdown();` followed by `break`.  Its
effects, in evaluation order, are: the `AsyncWriteExt::shutdown` future
is created but never awaited (an unpolled future runs nothing), the
future is dropped (still nothing runs), and the temporary
`OwnedWriteHalf` returned by `into_inner()` is dropped at the end of the
statement — and dropping a tokio `tcp::OwnedWriteHalf` shuts down the
write direction of the TCP stream (documented tokio behaviour,
equivalent to `TcpStream::shutdown`).  The arm then breaks the loop. -/

/-- The observable micro-effects of the shutdown select arm. -/
inductive DriverEffect where
  | mkShutdownFuture
  | dropUnpolledFuture
  | dropTcpWriteHalf
  | breakLoop
deriving DecidableEq

/-- The effect sequence of `messages_sink.into_inner().shutdown(); break`. -/
def shutdownArm : List DriverEffect :=
  [DriverEffect.mkShutdownFuture, DriverEffect.dropUnpolledFuture,
   DriverEffect.dropTcpWriteHalf, DriverEffect.breakLoop]

/-- The I/O facts the shutdown claims talk about. -/
structure DriverIoState where
  tcpWriteClosed : Bool
  loopBroken : Bool
deriving DecidableEq

/-- Semantics of one micro-effect: an unpolled future neither runs nor
has effects on drop; dropping the `OwnedWriteHalf` half-closes TCP;
`break` exits the driver loop. -/
def applyDriverEffect (s : DriverIoState) : DriverEffect → DriverIoState
  | DriverEffect.mkShutdownFuture => s
  | DriverEffect.dropUnpolledFuture => s
  | DriverEffect.dropTcpWriteHalf => { s with tcpWriteClosed := true }
  | DriverEffect.breakLoop => { s with loopBroken := true }

/-- Running the whole shutdown arm. -/
def runShutdownArm (s : DriverIoState) : DriverIoState :=
  shutdownArm.foldl applyDriverEffect s

/-- How the heartbeat async block can leave its select loop. -/
inductive LoopExit where
  | shutdownSignal
  | messagesStreamClosed
  | ioError (e : String)

/-- The value the heartbeat future resolves to for each way out of the
loop: both `break` paths (shutdown signal, closed messages stream) fall
through to the final `Ok(())`; a failed awaited operation propagates its
error through `?`. -/
def heartbeatResult : LoopExit → Except String Unit
  | LoopExit.shutdownSignal => Except.ok ()
  | LoopExit.messagesStreamClosed => Except.ok ()
  | LoopExit.ioError e => Except.error e

/-! ## `<VoiceStream as Stream>::poll_next` -/

/-- `std::task::Poll`. -/
inductive Poll (α : Type) where
  | pending
  | ready (a : α)
deriving DecidableEq

/-- The possible outcomes of polling the inner UDP voice stream, one
constructor per match arm of `poll_next`: pending; stream closed
(`Ready(None)`); a frame the codec could not complete
(`Ready(Some(Ok((None, _))))`); a decoded packet; a codec error. -/
inductive VoicePoll where
  | pending
  | closed
  | partialItem
  | item (p : VoicePacket)
  | err (e : String)

/-- `poll_next` from the `Stream` impl: first match on the voice
stream's poll, then — when it yielded nothing ready — on the heartbeat's
poll.  A completed heartbeat, even a successful one, is reported to the
consumer as the error `"TCP connection was closed unexpectedly"`. -/
def pollNext (v : VoicePoll) (h : Poll (Except String Unit)) :
    Poll (Option (Except String VoicePacket)) :=
  match v with
  | VoicePoll.closed =>
      Poll.ready (some (Except.error "voice stream was closed unexpectedly"))
  | VoicePoll.item p => Poll.ready (some (Except.ok p))
  | VoicePoll.err e => Poll.ready (some (Except.error e))
  | VoicePoll.pending | VoicePoll.partialItem =>
    match h with
    | Poll.pending => Poll.pending
    | Poll.ready (Except.error e) => Poll.ready (some (Except.error e))
    | Poll.ready (Except.ok _) =>
        Poll.ready (some (Except.error "TCP connection was closed unexpectedly"))

/-! ## Mission extraction (`crates/datis-module/src/mission.rs`)

### The MHz → Hz numeric conversions

Every frequency literal matched by the `<FreqMHz>` pattern
`[1-3]\\d{2}(\\.\\d{1,3})?` denotes `milli / 1000` MHz for an integer
`milli ∈ [100000, 399999]` (an integer literal `d` is `d * 1000` milli).
The conversion is `briefingMhzToHz` (`f32`, see its doc comment) or
`configMhzToHz` (`f64`), both instances of `mhzToHz` above. -/

/-! ### Station building: airfields are claimed by removal

`extract` builds the `airfields` map (one entry per terrain airdrome,
keyed by display name), then first turns the briefing-extracted
frequencies into stations via `airfields.remove(&name).map(...)`, and
afterwards turns unit-name ATIS directives into stations via
`airfields.remove(&config.name).map(...)`.  Both use the same
claim-by-removal shape, embedded once as `claimStations` over an
association list with distinct keys (the `HashMap`).  The TTS record and
the regex parser for unit names are abstracted as parameters: the claims
hold for every voice type and every parser. -/

/-- `Airfield` from datis-core's station module as populated in
`mission.rs`. -/
structure Airfield where
  name : String
  x : ℚ
  y : ℚ
  alt : ℚ
  runways : List String
  traffic_freq : Option ℕ
  info_ltr_offset : ℕ
deriving DecidableEq

/-- `StationConfig` from `mission.rs`; `V` is the TTS provider type. -/
structure StationConfig (V : Type) where
  name : String
  atis : ℕ
  traffic : Option ℕ
  tts : Option V

/-- `MissionUnit` from `mission.rs`. -/
structure MissionUnit where
  id : ℕ
  name : String
  x : ℚ
  y : ℚ
  alt : ℚ

/-- An ATIS `Station` (`transmitter: Transmitter::Airfield`); the fields
the ATIS portion of `extract` populates. -/
structure Station (V : Type) where
  name : String
  freq : ℕ
  tts : V
  airfield : Airfield

/-- A briefing-extracted station: `name` and `freq.atis` from the
briefing config, default voice, the claimed airfield untouched. -/
def mkStationFromBriefing {V : Type} (default_voice : V) (name : String)
    (cfg : StationConfig V) (airfield : Airfield) : Station V :=
  { name := name
    freq := cfg.atis
    tts := default_voice
    airfield := airfield }

/-- A unit-directive station: the claimed airfield gets the directive's
traffic frequency and the unit's position, the station carries the
directive's name, frequency and voice (default voice as fallback). -/
def mkStationFromUnit {V : Type} (default_voice : V) (u : MissionUnit)
    (cfg : StationConfig V) (airfield : Airfield) : Station V :=
  { name := cfg.name
    freq := cfg.atis
    tts := cfg.tts.getD default_voice
    airfield := { airfield with
                    traffic_freq := cfg.traffic
                    x := u.x
                    y := u.y
                    alt := u.alt } }

/-- The claim-by-removal loop shared by both station-building passes:
for each request, `HashMap::remove` is embedded as a lookup followed by
erasure of the found entry; a request whose key is absent produces
nothing (`filter_map` over `Option`). -/
def claimStations {V β : Type} (mk : β → Airfield → Station V)
    (key : β → String) :
    List β → List (String × Airfield) → List (Station V) × List (String × Airfield)
  | [], m => ([], m)
  | b :: rest, m =>
    match m.lookup (key b) with
    | none => claimStations mk key rest m
    | some airfield =>
      let m2 := m.eraseP (fun p => p.1 == key b)
      let r := claimStations mk key rest m2
      (mk b airfield :: r.1, r.2)

/-- The ATIS portion of `extract`: stations from briefing frequencies
first, then from unit-name directives (`parse` standing for
`extract_atis_station_config`), each claiming its airfield by removal
from the shared map. -/
def extractAtisStations {V : Type} (default_voice : V)
    (parse : String → Option (StationConfig V))
    (freqs : List (String × StationConfig V)) (units : List MissionUnit)
    (airfields : List (String × Airfield)) : List (Station V) :=
  let r1 := claimStations
    (fun (p : String × StationConfig V) af => mkStationFromBriefing default_voice p.1 p.2 af)
    Prod.fst freqs airfields
  let unitCfgs := units.filterMap (fun u => (parse u.name).map (fun c => (u, c)))
  let r2 := claimStations
    (fun (p : MissionUnit × StationConfig V) af => mkStationFromUnit default_voice p.1 p.2 af)
    (fun p => p.2.name) unitCfgs r1.2
  r1.1 ++ r2.1

/-! ## Helper lemmas: rounding error of the exact float embedding -/

theorem rneFrac_err (num den : ℕ) (hden : 0 < den) :
    |((rneFrac num den : ℕ) : ℚ) - (num : ℚ) / den| ≤ 1 / 2 := by
  have hdq : (0:ℚ) < (den : ℚ) := by exact_mod_cast hden
  have hmod := Nat.div_add_mod num den
  have hr : num % den < den := Nat.mod_lt _ hden
  have hsplit : (num : ℚ) / den = ((num / den : ℕ) : ℚ) + ((num % den : ℕ) : ℚ) / den := by
    have hc : ((den * (num / den) + num % den : ℕ) : ℚ) = (num : ℚ) := by
      exact_mod_cast congrArg (fun n => ((n : ℕ) : ℚ)) hmod
    push_cast at hc
    field_simp
    linarith
  set t : ℚ := ((num % den : ℕ) : ℚ) / den with ht
  have ht0 : 0 ≤ t := by positivity
  have ht1 : t < 1 := by
    rw [ht, div_lt_one hdq]
    exact_mod_cast hr
  simp only [rneFrac]
  rw [hsplit, abs_le]
  split_ifs with hlt hgt hev
  · -- 2r < den: round down, error t < 1/2
    have h2 : ((2 * (num % den) : ℕ) : ℚ) < ((den : ℕ) : ℚ) := by exact_mod_cast hlt
    push_cast at h2
    have htlt : t < 1/2 := by rw [ht, div_lt_iff hdq]; linarith
    constructor <;> linarith
  · -- den < 2r: round up, error 1 - t < 1/2
    have h2 : ((den : ℕ) : ℚ) < ((2 * (num % den) : ℕ) : ℚ) := by exact_mod_cast hgt
    push_cast at h2
    have htgt : 1/2 < t := by rw [ht, lt_div_iff hdq]; linarith
    constructor <;> push_cast <;> linarith
  · -- tie, even mantissa: round down, error exactly 1/2
    have heq : 2 * (num % den) = den := by omega
    have h2 : ((den : ℕ) : ℚ) = 2 * ((num % den : ℕ) : ℚ) := by exact_mod_cast heq.symm
    have hteq : t = 1/2 := by rw [ht, div_eq_iff (ne_of_gt hdq)]; linarith
    constructor <;> linarith
  · -- tie, odd mantissa: round up, error exactly 1/2
    have heq : 2 * (num % den) = den := by omega
    have h2 : ((den : ℕ) : ℚ) = 2 * ((num % den : ℕ) : ℚ) := by exact_mod_cast heq.symm
    have hteq : t = 1/2 := by rw [ht, div_eq_iff (ne_of_gt hdq)]; linarith
    constructor <;> push_cast <;> linarith

theorem natLog2Fuel_le : ∀ fuel n, 1 ≤ n → n ≤ fuel → 2 ^ natLog2Fuel fuel n ≤ n := by
  intro fuel
  induction fuel with
  | zero => intro n h1 h2; omega
  | succ fuel ih =>
    intro n h1 h2
    simp only [natLog2Fuel]
    split_ifs with hsmall
    · simpa using h1
    · have hd1 : 1 ≤ n / 2 := by omega
      have hd2 : n / 2 ≤ fuel := by omega
      have := ih (n / 2) hd1 hd2
      calc 2 ^ (natLog2Fuel fuel (n / 2) + 1) = 2 * 2 ^ natLog2Fuel fuel (n / 2) := by ring
      _ ≤ 2 * (n / 2) := by omega
      _ ≤ n := by omega

theorem natLog2_le (n : ℕ) (h : 1 ≤ n) : 2 ^ natLog2 n ≤ n :=
  natLog2Fuel_le n n h le_rfl

theorem roundPair_err (prec num den : ℕ) (hden : 0 < den) (hnum : den ≤ num) :
    |pairValue (roundPair prec num den) - (num : ℚ) / den|
      ≤ (num : ℚ) / den * ((2 : ℚ) ^ prec)⁻¹ := by
  have hdq : (0:ℚ) < (den : ℚ) := by exact_mod_cast hden
  set q : ℚ := (num : ℚ) / den with hq
  have hq1 : 1 ≤ q := by
    rw [hq, le_div_iff hdq]
    simpa using (by exact_mod_cast hnum : ((den : ℕ) : ℚ) ≤ (num : ℕ))
  set k : ℕ := natLog2 (num / den) with hk
  have hk2 : ((2 : ℚ)) ^ k ≤ q := by
    have hd1 : 1 ≤ num / den := (Nat.one_le_div_iff hden).mpr hnum
    have hl := natLog2_le (num / den) hd1
    have hcast : (((2 : ℕ) ^ k : ℕ) : ℚ) ≤ ((num / den : ℕ) : ℚ) := by exact_mod_cast hl
    calc ((2 : ℚ)) ^ k = (((2 : ℕ) ^ k : ℕ) : ℚ) := by push_cast; ring
    _ ≤ ((num / den : ℕ) : ℚ) := hcast
    _ ≤ q := by rw [hq]; exact Nat.cast_div_le
  simp only [roundPair, ← hk]
  split_ifs with hle
  · -- scale up: s = prec - 1 - k, value = m * 2 ^ (-s)
    set s : ℕ := prec - 1 - k with hs
    have hsk : s + 1 + k = prec := by omega
    have herr := rneFrac_err (num * 2 ^ s) den hden
    have hPpos : (0:ℚ) < (2 : ℚ) ^ s := by positivity
    have hfrac : ((num * 2 ^ s : ℕ) : ℚ) / den = q * 2 ^ s := by
      push_cast
      rw [hq]
      ring
    rw [hfrac] at herr
    have hvalue : pairValue (rneFrac (num * 2 ^ s) den, -(s : ℤ))
        = ((rneFrac (num * 2 ^ s) den : ℕ) : ℚ) * ((2 : ℚ) ^ s)⁻¹ := by
      simp only [pairValue]
      rw [zpow_neg, zpow_natCast]
    rw [hvalue]
    have hkey : ((rneFrac (num * 2 ^ s) den : ℕ) : ℚ) * ((2 : ℚ) ^ s)⁻¹ - q
        = (((rneFrac (num * 2 ^ s) den : ℕ) : ℚ) - q * 2 ^ s) * ((2 : ℚ) ^ s)⁻¹ := by
      field_simp
      ring
    rw [hkey, abs_mul, abs_of_pos (by positivity : (0:ℚ) < ((2 : ℚ) ^ s)⁻¹)]
    calc |((rneFrac (num * 2 ^ s) den : ℕ) : ℚ) - q * 2 ^ s| * ((2 : ℚ) ^ s)⁻¹
        ≤ (1 / 2) * ((2 : ℚ) ^ s)⁻¹ :=
          mul_le_mul_of_nonneg_right herr (by positivity)
    _ = (2 : ℚ) ^ k * ((2 : ℚ) ^ prec)⁻¹ := by
          rw [← hsk, pow_add, pow_add, pow_one]
          field_simp
          ring
    _ ≤ q * ((2 : ℚ) ^ prec)⁻¹ :=
          mul_le_mul_of_nonneg_right hk2 (by positivity)
  · -- scale down: s = k + 1 - prec, value = m * 2 ^ s
    set s : ℕ := k + 1 - prec with hs
    have hsk : s + prec = k + 1 := by omega
    have hden2 : 0 < den * 2 ^ s := by positivity
    have herr := rneFrac_err num (den * 2 ^ s) hden2
    have hPpos : (0:ℚ) < (2 : ℚ) ^ s := by positivity
    have hfrac : (num : ℚ) / ((den * 2 ^ s : ℕ) : ℚ) = q * ((2 : ℚ) ^ s)⁻¹ := by
      push_cast
      rw [hq]
      field_simp
    rw [hfrac] at herr
    have hvalue : pairValue (rneFrac num (den * 2 ^ s), (s : ℤ))
        = ((rneFrac num (den * 2 ^ s) : ℕ) : ℚ) * (2 : ℚ) ^ s := by
      simp only [pairValue]
      rw [zpow_natCast]
    rw [hvalue]
    have hkey : ((rneFrac num (den * 2 ^ s) : ℕ) : ℚ) * (2 : ℚ) ^ s - q
        = (((rneFrac num (den * 2 ^ s) : ℕ) : ℚ) - q * ((2 : ℚ) ^ s)⁻¹) * (2 : ℚ) ^ s := by
      field_simp
    rw [hkey, abs_mul, abs_of_pos hPpos]
    calc |((rneFrac num (den * 2 ^ s) : ℕ) : ℚ) - q * ((2 : ℚ) ^ s)⁻¹| * (2 : ℚ) ^ s
        ≤ (1 / 2) * (2 : ℚ) ^ s :=
          mul_le_mul_of_nonneg_right herr (by positivity)
    _ = (2 : ℚ) ^ k * ((2 : ℚ) ^ prec)⁻¹ := by
          have : (2 : ℚ) ^ s * (2 : ℚ) ^ prec = 2 * (2 : ℚ) ^ k := by
            rw [← pow_add, hsk, pow_add, pow_one]
            ring
          field_simp
          linarith [this]
    _ ≤ q * ((2 : ℚ) ^ prec)⁻¹ :=
          mul_le_mul_of_nonneg_right hk2 (by positivity)

theorem mulMillion_exact (p : ℕ × ℤ) :
    0 < (mulMillion p).2 ∧
      (((mulMillion p).1 : ℕ) : ℚ) / (((mulMillion p).2 : ℕ) : ℚ)
        = pairValue p * 1000000 := by
  obtain ⟨m, e⟩ := p
  cases e with
  | ofNat s =>
    refine ⟨by simp [mulMillion], ?_⟩
    simp only [mulMillion, pairValue, Int.ofNat_eq_natCast, zpow_natCast]
    push_cast
    ring
  | negSucc s =>
    refine ⟨by simp only [mulMillion]; positivity, ?_⟩
    simp only [mulMillion, pairValue, zpow_negSucc]
    push_cast
    field_simp

theorem pairFloor_bounds (p : ℕ × ℤ) :
    ((pairFloor p : ℕ) : ℚ) ≤ pairValue p ∧
      pairValue p < ((pairFloor p : ℕ) : ℚ) + 1 := by
  obtain ⟨m, e⟩ := p
  cases e with
  | ofNat s =>
    simp only [pairFloor, pairValue, Int.ofNat_eq_natCast, zpow_natCast]
    constructor
    · push_cast
      linarith
    · push_cast
      linarith
  | negSucc s =>
    have hd : (0:ℚ) < (2:ℚ) ^ (s + 1) := by positivity
    simp only [pairFloor, pairValue, zpow_negSucc]
    constructor
    · calc ((m / 2 ^ (s + 1) : ℕ) : ℚ)
          ≤ (m : ℚ) / ((2 ^ (s + 1) : ℕ) : ℚ) := Nat.cast_div_le
      _ = (m : ℚ) * ((2:ℚ) ^ (s + 1))⁻¹ := by push_cast; ring
    · have hlt : m < 2 ^ (s + 1) * (m / 2 ^ (s + 1) + 1) := by
        have h2 : m % 2 ^ (s + 1) < 2 ^ (s + 1) :=
          Nat.mod_lt _ (by positivity)
        calc m = 2 ^ (s + 1) * (m / 2 ^ (s + 1)) + m % 2 ^ (s + 1) :=
              (Nat.div_add_mod m _).symm
        _ < 2 ^ (s + 1) * (m / 2 ^ (s + 1)) + 2 ^ (s + 1) :=
              Nat.add_lt_add_left h2 _
        _ = 2 ^ (s + 1) * (m / 2 ^ (s + 1) + 1) := by ring
      have hc : (m : ℚ) < ((2 ^ (s + 1) * (m / 2 ^ (s + 1) + 1) : ℕ) : ℚ) := by
        exact_mod_cast hlt
      push_cast at hc
      rw [show (m : ℚ) * ((2:ℚ) ^ (s + 1))⁻¹ = (m : ℚ) / (2:ℚ) ^ (s + 1) from by ring,
        div_lt_iff hd]
      nlinarith [hc]

/-! ## Helper lemmas: association lists (the embedded `HashMap`) -/

theorem lookup_mem {β : Type} {l : List (String × β)} {k : String} {v : β}
    (h : l.lookup k = some v) : (k, v) ∈ l := by
  induction l with
  | nil => simp [List.lookup] at h
  | cons a t ih =>
    obtain ⟨a1, a2⟩ := a
    rw [List.lookup_cons] at h
    by_cases hk : k = a1
    · subst hk
      simp only [beq_self_eq_true] at h
      injection h with h
      subst h
      exact List.mem_cons_self _ _
    · have hbeq : (k == a1) = false := by simp [hk]
      rw [hbeq] at h
      exact List.mem_cons_of_mem _ (ih h)

theorem lookup_of_mem_keys {β : Type} {l : List (String × β)} {k : String}
    (h : k ∈ l.map Prod.fst) : ∃ v, l.lookup k = some v := by
  induction l with
  | nil => simp at h
  | cons a t ih =>
    obtain ⟨a1, a2⟩ := a
    rw [List.lookup_cons]
    rw [List.map_cons, List.mem_cons] at h
    by_cases hk : k = a1
    · have hbeq : (k == a1) = true := by simp [hk]
      rw [hbeq]
      exact ⟨a2, rfl⟩
    · have hbeq : (k == a1) = false := by simp [hk]
      rw [hbeq]
      rcases h with h | h
      · exact absurd h hk
      · exact ih h

theorem keys_eraseP_of_nodup {β : Type} {l : List (String × β)} {k : String}
    (hnd : (l.map Prod.fst).Nodup) :
    k ∉ (l.eraseP (fun p => p.1 == k)).map Prod.fst ∨ k ∉ l.map Prod.fst := by
  induction l with
  | nil => simp
  | cons a t ih =>
    obtain ⟨a1, a2⟩ := a
    rw [List.map_cons, List.nodup_cons] at hnd
    rw [List.eraseP_cons]
    by_cases hk : a1 = k
    · left
      have hbeq : ((a1, a2).1 == k) = true := by simp [hk]
      rw [hbeq, cond_true]
      rw [← hk]
      exact hnd.1
    · have hbeq : ((a1, a2).1 == k) = false := by simp [hk]
      rw [hbeq, cond_false]
      rcases ih hnd.2 with h | h
      · left
        rw [List.map_cons, List.mem_cons]
        push_neg
        exact ⟨fun hc => hk hc.symm, h⟩
      · right
        rw [List.map_cons, List.mem_cons]
        push_neg
        exact ⟨fun hc => hk hc.symm, h⟩

theorem mem_keys_eraseP {β : Type} {l : List (String × β)} {k k0 : String}
    (hne : k ≠ k0) (h : k ∈ l.map Prod.fst) :
    k ∈ (l.eraseP (fun p => p.1 == k0)).map Prod.fst := by
  induction l with
  | nil => simp at h
  | cons a t ih =>
    obtain ⟨a1, a2⟩ := a
    rw [List.eraseP_cons]
    rw [List.map_cons, List.mem_cons] at h
    by_cases ha : a1 = k0
    · have hbeq : ((a1, a2).1 == k0) = true := by simp [ha]
      rw [hbeq, cond_true]
      rcases h with h | h
      · exact absurd (h.trans ha) hne
      · exact h
    · have hbeq : ((a1, a2).1 == k0) = false := by simp [ha]
      rw [hbeq, cond_false]
      rw [List.map_cons, List.mem_cons]
      rcases h with h | h
      · exact Or.inl h
      · exact Or.inr (ih h)

/-! ## Helper lemmas: the claim-by-removal loop -/

theorem claimStations_sublist {V β : Type} (mk : β → Airfield → Station V)
    (key : β → String) :
    ∀ (reqs : List β) (m : List (String × Airfield)),
      ((claimStations mk key reqs m).2).Sublist m := by
  intro reqs
  induction reqs with
  | nil =>
    intro m
    simp [claimStations]
  | cons b rest ih =>
    intro m
    cases hl : m.lookup (key b) with
    | none =>
      simp only [claimStations, hl]
      exact ih m
    | some af =>
      simp only [claimStations, hl]
      exact (ih _).trans (List.eraseP_sublist m)

theorem claimStations_nodup {V β : Type} (mk : β → Airfield → Station V)
    (key : β → String) (hmk : ∀ b af, (mk b af).name = key b) :
    ∀ (reqs : List β) (m : List (String × Airfield)), (m.map Prod.fst).Nodup →
      (((claimStations mk key reqs m).1.map Station.name
          ++ (claimStations mk key reqs m).2.map Prod.fst).Nodup)
      ∧ (∀ s ∈ (claimStations mk key reqs m).1, s.name ∈ m.map Prod.fst) := by
  intro reqs
  induction reqs with
  | nil =>
    intro m hm
    constructor
    · simpa [claimStations] using hm
    · simp [claimStations]
  | cons b rest ih =>
    intro m hm
    cases hl : m.lookup (key b) with
    | none =>
      simp only [claimStations, hl]
      exact ih m hm
    | some af =>
      have hsub : (m.eraseP (fun p => p.1 == key b)).Sublist m :=
        List.eraseP_sublist m
      have hm2 : ((m.eraseP (fun p => p.1 == key b)).map Prod.fst).Nodup :=
        List.Nodup.sublist (hsub.map Prod.fst) hm
      obtain ⟨ihn, ihs⟩ := ih _ hm2
      have hkm : key b ∉ (m.eraseP (fun p => p.1 == key b)).map Prod.fst := by
        rcases keys_eraseP_of_nodup (k := key b) hm with h | h
        · exact h
        · exact absurd (List.mem_map.mpr ⟨_, lookup_mem hl, rfl⟩) h
      simp only [claimStations, hl]
      constructor
      · rw [List.map_cons, List.cons_append, List.nodup_cons]
        refine ⟨?_, ihn⟩
        rw [hmk b af]
        intro hcon
        rw [List.mem_append] at hcon
        rcases hcon with hc | hc
        · obtain ⟨s, hs, hname⟩ := List.mem_map.mp hc
          have hmem := ihs s hs
          rw [hname] at hmem
          exact hkm hmem
        · have hsub2 := claimStations_sublist mk key rest
            (m.eraseP (fun p => p.1 == key b))
          exact hkm ((hsub2.map Prod.fst).subset hc)
      · intro s hs
        rcases List.mem_cons.mp hs with rfl | hs
        · rw [hmk b af]
          exact List.mem_map.mpr ⟨_, lookup_mem hl, rfl⟩
        · exact (hsub.map Prod.fst).subset (ihs s hs)

theorem claimStations_hits {V β : Type} (mk : β → Airfield → Station V)
    (key : β → String) :
    ∀ (reqs : List β) (m : List (String × Airfield)), (reqs.map key).Nodup →
      ∀ b ∈ reqs, key b ∈ m.map Prod.fst →
        ∃ af, mk b af ∈ (claimStations mk key reqs m).1 := by
  intro reqs
  induction reqs with
  | nil =>
    intro m _ b hb
    simp at hb
  | cons b0 rest ih =>
    intro m hnr b hb hkey
    rw [List.map_cons, List.nodup_cons] at hnr
    rcases List.mem_cons.mp hb with rfl | hbr
    · obtain ⟨af, haf⟩ := lookup_of_mem_keys hkey
      refine ⟨af, ?_⟩
      simp only [claimStations, haf]
      exact List.mem_cons_self _ _
    · cases hl : m.lookup (key b0) with
      | none =>
        obtain ⟨af, haf⟩ := ih m hnr.2 b hbr hkey
        refine ⟨af, ?_⟩
        simp only [claimStations, hl]
        exact haf
      | some af0 =>
        have hne : key b ≠ key b0 := by
          intro hc
          exact hnr.1 (hc ▸ List.mem_map.mpr ⟨b, hbr, rfl⟩)
        have hkey2 : key b ∈ (m.eraseP (fun p => p.1 == key b0)).map Prod.fst :=
          mem_keys_eraseP hne hkey
        obtain ⟨af, haf⟩ := ih _ hnr.2 b hbr hkey2
        refine ⟨af, ?_⟩
        simp only [claimStations, hl]
        exact List.mem_cons_of_mem _ haf

/-! ## Helper lemmas: the outbound voice sink -/

theorem sinkRun_ids (client : Client) :
    ∀ (chunks : List (List ℕ)) (pid : ℕ), pid < 2 ^ 64 →
      (sinkRun client chunks pid).1.map VoicePacket.packet_id
        = (List.range chunks.length).map (fun i => (pid + i) % 2 ^ 64) := by
  intro chunks
  induction chunks with
  | nil =>
    intro pid _
    simp [sinkRun]
  | cons a rest ih =>
    intro pid h
    have hnext : (pid + 1) % 2 ^ 64 < 2 ^ 64 := Nat.mod_lt _ (by norm_num)
    simp only [sinkRun, startSend, List.map_cons, List.length_cons,
      List.range_succ_eq_map, List.map_map]
    congr 1
    · rw [Nat.add_zero, Nat.mod_eq_of_lt h]
    · rw [ih _ hnext]
      apply List.map_congr_left
      intro i _
      simp only [Function.comp_apply]
      rw [Nat.mod_add_mod]
      congr 1
      omega

/-! ## The claims -/

/-- C1: for every session, the `packet_id` stamped on emitted voice
packets is strictly increasing modulo `2 ^ 64`: starting from the
initial sink state (`packet_id = 1`, as set by `VoiceStream::new`), the
first emitted packet carries `packet_id` 1, and each subsequent packet
carries the previous `packet_id` plus 1 with wrap-around at `2 ^ 64`
(`u64::wrapping_add`). -/
theorem packet_id_discipline (client : Client) (chunks : List (List ℕ)) :
    (∀ p, ((sinkRun client chunks 1).1.map VoicePacket.packet_id)[0]? = some p
      → p = 1) ∧
    (∀ i a b, ((sinkRun client chunks 1).1.map VoicePacket.packet_id)[i]? = some a
      → ((sinkRun client chunks 1).1.map VoicePacket.packet_id)[i + 1]? = some b
      → b = (a + 1) % 2 ^ 64) := by
  have hids := sinkRun_ids client chunks 1 (by norm_num)
  have hkey : ∀ j, (List.range chunks.length)[j]?
      = if j < chunks.length then some j else none := by
    intro j
    by_cases hj : j < chunks.length
    · rw [if_pos hj, List.getElem?_range hj]
    · rw [if_neg hj, List.getElem?_eq_none]
      simpa using Nat.le_of_not_lt hj
  constructor
  · intro p hp
    rw [hids, List.getElem?_map, hkey] at hp
    by_cases h0 : 0 < chunks.length
    · rw [if_pos h0] at hp
      simp at hp
      omega
    · rw [if_neg h0] at hp
      simp at hp
  · intro i a b ha hb
    rw [hids, List.getElem?_map, hkey] at ha hb
    by_cases hi : i < chunks.length
    · by_cases hi2 : i + 1 < chunks.length
      · rw [if_pos hi] at ha
        rw [if_pos hi2] at hb
        simp at ha hb
        have h64 : (2:ℕ) ^ 64 = 18446744073709551616 := by norm_num
        rw [h64]
        omega
      · rw [if_neg hi2] at hb
        simp at hb
    · rw [if_neg hi] at ha
      simp at ha

/-- C1 witness: two chunks submitted from the initial state carry
packet ids 1 and 2 = (1 + 1) % 2 ^ 64. -/
theorem packet_id_discipline_witness :
    ((sinkRun ⟨"G", "n", 1, "AM", ⟨0, 0, 0⟩, none⟩ [[], []] 1).1.map
        VoicePacket.packet_id)[0]? = some 1 ∧
    (2 : ℕ) = (1 + 1) % 2 ^ 64 := by
  constructor
  · decide
  · exact (packet_id_discipline ⟨"G", "n", 1, "AM", ⟨0, 0, 0⟩, none⟩ [[], []]).2
      0 1 2 (by decide) (by decide)

/-- C2: on session start the driver writes exactly two control messages
in order — a `Sync`, then a `RadioUpdate` whose radio-info block has
exactly 10 default radio slots, control mode `Hotas`, `selected = 0`,
`simultaneous_transmission = true`, coalition `Blue`, and unit name/id
from the unit binding with fallback to the client name and unit id 0. -/
theorem handshake_messages (client : Client) :
    startupMessages client
      = [create_sync_message client, create_radio_update_message client] ∧
    (create_sync_message client).msg_type = MsgType.sync ∧
    (create_radio_update_message client).msg_type = MsgType.radioUpdate ∧
    ∃ mc ri, (create_radio_update_message client).client = some mc ∧
      mc.coalition = Coalition.blue ∧
      mc.radio_info = some ri ∧
      ri.radios = List.replicate 10 Radio.default ∧
      ri.control = RadioSwitchControls.hotas ∧
      ri.selected = 0 ∧
      ri.simultaneous_transmission = true ∧
      ri.unit = (match client.unit with
                 | some u => u.name
                 | none => client.name) ∧
      ri.unit_id = (match client.unit with
                    | some u => u.id
                    | none => 0) := by
  obtain ⟨sg, nm, fr, mo, ps, un⟩ := client
  refine ⟨rfl, rfl, rfl, ?_⟩
  cases un with
  | none => exact ⟨_, _, rfl, rfl, rfl, rfl, rfl, rfl, rfl, rfl, rfl⟩
  | some u => exact ⟨_, _, rfl, rfl, rfl, rfl, rfl, rfl, rfl, rfl, rfl⟩

/-- C3: every audio chunk submitted to the outbound voice sink is
wrapped into a `VoicePacket` with exactly one frequency entry carrying
the session frequency as `f64`, modulation FM iff the session modulation
string is exactly `"FM"` (else AM), encryption `None`; unit id from the
binding or 0; hop count 0; and both sguids equal to the session sguid. -/
theorem voice_packet_fields (client : Client) (chunk : List ℕ) (pid : ℕ) :
    ((startSend client chunk pid).1.frequencies
      = [{ freq := u64ToF64 client.freq
           modulation := if client.m = "FM" then Modulation.fm else Modulation.am
           encryption := Encryption.none }]) ∧
    (((startSend client chunk pid).1.frequencies.map Frequency.modulation
      = [Modulation.fm]) ↔ client.m = "FM") ∧
    ((startSend client chunk pid).1.unit_id
      = match client.unit with
        | some u => u.id
        | none => 0) ∧
    ((startSend client chunk pid).1.hop_count = 0) ∧
    ((startSend client chunk pid).1.transmission_sguid = client.sguid) ∧
    ((startSend client chunk pid).1.client_sguid = client.sguid) ∧
    ((startSend client chunk pid).1.packet_id = pid) ∧
    ((startSend client chunk pid).1.audio_part = chunk) := by
  obtain ⟨sg, nm, fr, mo, ps, un⟩ := client
  refine ⟨rfl, ?_, ?_, rfl, rfl, rfl, rfl, rfl⟩
  · by_cases h : mo = "FM"
    · simp [startSend, h]
    · simp [startSend, h]
  · cases un with
    | none => rfl
    | some u => rfl

/-- C3 witness: with session modulation string `"FM"` the emitted
frequency entry is FM. -/
theorem voice_packet_fields_witness :
    (startSend ⟨"G", "n", 251000000, "FM", ⟨0, 0, 0⟩, none⟩ [7] 5).1.frequencies.map
        Frequency.modulation = [Modulation.fm] :=
  (voice_packet_fields ⟨"G", "n", 251000000, "FM", ⟨0, 0, 0⟩, none⟩ [7] 5).2.1.mpr rfl

/-- C4: whenever an inbound control message carries a `server_settings`
map, `los_enabled` is latched to true iff the map's `LOS_ENABLED` entry
is exactly `"True"`, and `distance_enabled` iff the `DISTANCE_ENABLED`
entry is exactly `"true"` (both case-sensitive); any other value or a
missing entry leaves the corresponding flag false. -/
theorem server_settings_latching (msg : Message)
    (settings : List (String × String)) (s : ServerSettings)
    (h : msg.server_settings = some settings) :
    ((handleControlMessage msg s).1.los_enabled = true
      ↔ settings.lookup "LOS_ENABLED" = some "True") ∧
    ((handleControlMessage msg s).1.distance_enabled = true
      ↔ settings.lookup "DISTANCE_ENABLED" = some "true") := by
  obtain ⟨mc, mt, ss, v⟩ := msg
  have h2 : ss = some settings := h
  subst h2
  have hfst : (handleControlMessage ⟨mc, mt, some settings, v⟩ s).1
      = latchServerSettings settings := by
    cases mt <;> rfl
  rw [hfst]
  constructor
  · simp [latchServerSettings, beq_iff_eq]
  · simp [latchServerSettings, beq_iff_eq]

/-- C4 witness: a map carrying `LOS_ENABLED = "True"` and
`DISTANCE_ENABLED = "False"` latches `los_enabled` and leaves
`distance_enabled` false. -/
theorem server_settings_latching_witness :
    (handleControlMessage
      ⟨none, MsgType.sync,
        some [("LOS_ENABLED", "True"), ("DISTANCE_ENABLED", "False")],
        "1.9.0.0"⟩ ⟨false, false⟩).1.los_enabled = true ∧
    ¬(handleControlMessage
      ⟨none, MsgType.sync,
        some [("LOS_ENABLED", "True"), ("DISTANCE_ENABLED", "False")],
        "1.9.0.0"⟩ ⟨false, false⟩).1.distance_enabled = true := by
  have h := server_settings_latching
    ⟨none, MsgType.sync,
      some [("LOS_ENABLED", "True"), ("DISTANCE_ENABLED", "False")],
      "1.9.0.0"⟩
    [("LOS_ENABLED", "True"), ("DISTANCE_ENABLED", "False")]
    ⟨false, false⟩ rfl
  constructor
  · exact h.1.mpr (by decide)
  · intro hc
    exact absurd (h.2.mp hc) (by decide)

/-- C5: on a position-update timer tick, an `Update` message is emitted
iff the session was created without a game source, at least one of
`los_enabled` / `distance_enabled` is set, and the current position
snapshot differs from the position at the last send; the emitted message
is the `Update` built from the client, and the remembered position
advances exactly when a message is emitted. -/
theorem position_update_gating (client : Client) (game_source : Option Unit)
    (los dist : Bool) (old_pos : LatLngPosition) :
    ((positionTick client (sendClientPositionUpdates game_source) los dist
        old_pos).1.isSome = true
      ↔ (game_source = none ∧ (los = true ∨ dist = true)
          ∧ client.pos ≠ old_pos)) ∧
    (∀ m, (positionTick client (sendClientPositionUpdates game_source) los dist
        old_pos).1 = some m
      → m = create_update_message client ∧ m.msg_type = MsgType.update) ∧
    ((positionTick client (sendClientPositionUpdates game_source) los dist
        old_pos).2
      = if (positionTick client (sendClientPositionUpdates game_source) los dist
            old_pos).1.isSome = true
        then client.pos else old_pos) := by
  cases game_source with
  | some u =>
    have hpt : positionTick client (sendClientPositionUpdates (some u)) los dist
        old_pos = (none, old_pos) := rfl
    refine ⟨?_, ?_, ?_⟩
    · simp only [hpt]
      constructor
      · intro habs
        exact absurd habs (by decide)
      · rintro ⟨hgs, -⟩
        cases hgs
    · intro m hm
      rw [hpt] at hm
      exact absurd hm (by simp)
    · simp only [hpt]
      simp
  | none =>
    simp only [sendClientPositionUpdates, Option.isNone_none]
    by_cases hc : (los || dist) = true ∧ client.pos ≠ old_pos
    · have hpt : positionTick client true los dist old_pos
          = (some (create_update_message client), client.pos) := by
        unfold positionTick
        rw [if_neg (by decide : ¬(true = false)), if_pos hc]
      refine ⟨?_, ?_, ?_⟩
      · simp only [hpt]
        constructor
        · intro _
          have hor := hc.1
          rw [Bool.or_eq_true] at hor
          exact ⟨trivial, hor, hc.2⟩
        · intro _
          rfl
      · intro m hm
        rw [hpt] at hm
        have hme := Option.some.inj hm
        subst hme
        exact ⟨rfl, rfl⟩
      · simp only [hpt]
        simp
    · have hpt : positionTick client true los dist old_pos
          = (none, old_pos) := by
        unfold positionTick
        rw [if_neg (by decide : ¬(true = false)), if_neg hc]
      refine ⟨?_, ?_, ?_⟩
      · simp only [hpt]
        constructor
        · intro habs
          exact absurd habs (by decide)
        · rintro ⟨-, hor, hne⟩
          exact absurd ⟨by rw [Bool.or_eq_true]; exact hor, hne⟩ hc
      · intro m hm
        rw [hpt] at hm
        exact absurd hm (by simp)
      · simp only [hpt]
        simp

/-- C5 witness: game source absent, `los_enabled` set, position changed
from the last send — a message is emitted. -/
theorem position_update_gating_witness :
    (positionTick ⟨"G", "n", 1, "AM", ⟨1, 2, 3⟩, none⟩
      (sendClientPositionUpdates none) true false ⟨0, 0, 0⟩).1.isSome = true :=
  (position_update_gating ⟨"G", "n", 1, "AM", ⟨1, 2, 3⟩, none⟩ none true false
    ⟨0, 0, 0⟩).1.mpr
    ⟨rfl, Or.inl rfl, by
      intro hcon
      have h1 := congrArg LatLngPosition.lat hcon
      norm_num at h1⟩

/-- `(a ++ b).data = a.data ++ b.data` (definitional for `String`). -/
theorem data_append (a b : String) : (a ++ b).data = a.data ++ b.data := rfl

/-- C6: a `VersionMismatch` control message terminates the session with
an error containing both the client protocol version `"1.9.0.0"` and the
server's version string verbatim; every other message kind is discarded
with no effect beyond the server-settings latching. -/
theorem version_mismatch_handling (msg : Message) (s : ServerSettings) :
    (msg.msg_type = MsgType.versionMismatch →
      (handleControlMessage msg s).2 = some (versionMismatchError msg.version) ∧
      strContains (versionMismatchError msg.version) "1.9.0.0" ∧
      strContains (versionMismatchError msg.version) msg.version) ∧
    (msg.msg_type ≠ MsgType.versionMismatch →
      handleControlMessage msg s = (settingsAfterMessage msg s, none)) := by
  obtain ⟨mc, mt, ss, v⟩ := msg
  constructor
  · intro h
    have h2 : mt = MsgType.versionMismatch := h
    subst h2
    refine ⟨rfl, ?_, ?_⟩
    · refine ⟨"Version mismatch between DATIS (".data,
        (") and the SRS server (" ++ v ++ ")").data, ?_⟩
      simp [versionMismatchError, SRS_VERSION, data_append, List.append_assoc]
    · refine ⟨("Version mismatch between DATIS (" ++ SRS_VERSION
          ++ ") and the SRS server (").data, ")".data, ?_⟩
      simp [versionMismatchError, data_append, List.append_assoc]
  · intro h
    cases mt with
    | versionMismatch => exact absurd rfl h
    | sync => rfl
    | update => rfl
    | radioUpdate => rfl
    | serverSettings => rfl
    | other => rfl

/-- C6 witness: a `VersionMismatch` with server version `"2.0.0.1"`
produces the error and it contains both version strings. -/
theorem version_mismatch_handling_witness :
    (handleControlMessage ⟨none, MsgType.versionMismatch, none, "2.0.0.1"⟩
        ⟨false, false⟩).2 = some (versionMismatchError "2.0.0.1") ∧
    strContains (versionMismatchError "2.0.0.1") "1.9.0.0" ∧
    strContains (versionMismatchError "2.0.0.1") "2.0.0.1" :=
  (version_mismatch_handling ⟨none, MsgType.versionMismatch, none, "2.0.0.1"⟩
    ⟨false, false⟩).1 rfl

/-- C7: when the shutdown signal fires, running the shutdown arm of the
select loop half-closes the TCP write direction (via the drop of the
`OwnedWriteHalf` moved out by `into_inner()`; the un-awaited `shutdown()`
future itself contributes nothing) and breaks out of the driver loop. -/
theorem shutdown_half_closes_tcp (s : DriverIoState) :
    (runShutdownArm s).tcpWriteClosed = true
      ∧ (runShutdownArm s).loopBroken = true := by
  constructor <;> rfl

/-- C8 counterexample: the claim says no error is surfaced to the caller
for the shutdown itself on the next poll of the session's stream; in the
code, after the shutdown signal the heartbeat completes with `Ok(())`,
and `poll_next` reports exactly that completed heartbeat as the error
`"TCP connection was closed unexpectedly"`. -/
theorem shutdown_stream_error_counterexample :
    heartbeatResult LoopExit.shutdownSignal = Except.ok () ∧
    pollNext VoicePoll.pending (Poll.ready (heartbeatResult LoopExit.shutdownSignal))
      = Poll.ready (some (Except.error "TCP connection was closed unexpectedly")) :=
  ⟨rfl, rfl⟩

/-- C8 (amended): after the shutdown signal the driver loop itself
returns success (`Ok(())`) — the shutdown is not an error inside the
driver — but the next poll of the session's stream reports the completed
heartbeat as the error `"TCP connection was closed unexpectedly"`;
errors from inside the driver loop surface verbatim on the next poll. -/
theorem shutdown_result_and_stream_behavior :
    heartbeatResult LoopExit.shutdownSignal = Except.ok () ∧
    pollNext VoicePoll.pending (Poll.ready (Except.ok ()))
      = Poll.ready (some (Except.error "TCP connection was closed unexpectedly")) ∧
    (∀ e, heartbeatResult (LoopExit.ioError e) = Except.error e) ∧
    (∀ e, pollNext VoicePoll.pending (Poll.ready (Except.error e))
      = Poll.ready (some (Except.error e))) :=
  ⟨rfl, rfl, fun _ => rfl, fun _ => rfl⟩

/-- C9 counterexample: the claim asks every extraction path to be
within 1 Hz of `round(x * 1e6)`, but the briefing extractor and the
BROADCAST directive parse with `f32`: the in-grammar literal `128.001`
converts to 128 001 008 Hz — 8 Hz away from 128 001 000. -/
theorem briefing_f32_exceeds_one_hz :
    briefingMhzToHz 128001 = 128001008 ∧
    ¬(|(briefingMhzToHz 128001 : ℤ) - (128001 : ℤ) * 1000| ≤ 1) := by
  constructor
  · decide
  · decide

/-- C9 (amended): the `f64` conversion used by the ATIS / CARRIER /
WEATHER unit-name directives is within 1 Hz of the exact
`round(x * 1e6) = milli * 1000` for every literal of the `<FreqMHz>`
grammar (the `f32` briefing/BROADCAST path is not, see the
counterexample). -/
theorem config_f64_within_one_hz (milli : ℕ)
    (h1 : 100000 ≤ milli) (h2 : milli ≤ 399999) :
    |(configMhzToHz milli : ℤ) - (milli : ℤ) * 1000| ≤ 1 := by
  have hden : (0:ℕ) < 1000 := by norm_num
  have hnum : 1000 ≤ milli := by omega
  have e1 := roundPair_err 53 milli 1000 hden hnum
  set p1 := roundPair 53 milli 1000 with hp1
  set v1 : ℚ := pairValue p1 with hv1
  have hml : (100000 : ℚ) ≤ (milli : ℚ) := by exact_mod_cast h1
  have hmh : (milli : ℚ) ≤ 399999 := by exact_mod_cast h2
  have hq1lo : (100 : ℚ) ≤ (milli : ℚ) / 1000 := by
    rw [le_div_iff (by norm_num : (0:ℚ) < 1000)]
    linarith
  have hq1hi : (milli : ℚ) / 1000 ≤ 400 := by
    rw [div_le_iff (by norm_num : (0:ℚ) < 1000)]
    linarith
  have hpow : ((2:ℚ) ^ (53:ℕ))⁻¹ = 1 / 9007199254740992 := by norm_num
  rw [hpow] at e1
  rw [abs_le] at e1
  have hv1lo : (99 : ℚ) ≤ v1 := by linarith [e1.1]
  have hv1hi : v1 ≤ 401 := by linarith [e1.2]
  have hm := mulMillion_exact p1
  have hd2q : (0:ℚ) < (((mulMillion p1).2 : ℕ) : ℚ) := by exact_mod_cast hm.1
  have hfrac1 : (1:ℚ) ≤ (((mulMillion p1).1 : ℕ) : ℚ)
      / (((mulMillion p1).2 : ℕ) : ℚ) := by
    rw [hm.2]
    linarith
  have hle2 : (mulMillion p1).2 ≤ (mulMillion p1).1 := by
    have hqq : (((mulMillion p1).2 : ℕ) : ℚ) ≤ (((mulMillion p1).1 : ℕ) : ℚ) := by
      rw [le_div_iff hd2q] at hfrac1
      linarith
    exact_mod_cast hqq
  have e2 := roundPair_err 53 (mulMillion p1).1 (mulMillion p1).2 hm.1 hle2
  rw [hm.2, hpow] at e2
  rw [abs_le] at e2
  have hfb := pairFloor_bounds (roundPair 53 (mulMillion p1).1 (mulMillion p1).2)
  set r : ℕ := pairFloor (roundPair 53 (mulMillion p1).1 (mulMillion p1).2)
    with hrdef
  set v2 : ℚ := pairValue (roundPair 53 (mulMillion p1).1 (mulMillion p1).2)
    with hv2
  have hdef : configMhzToHz milli = r := rfl
  have hub : v2 < (milli : ℚ) * 1000 + 1/2 := by
    linarith [e2.2, e1.2]
  have hlb : (milli : ℚ) * 1000 - 1/2 < v2 := by
    linarith [e2.1, e1.1]
  have hrle : (r : ℚ) ≤ v2 := hfb.1
  have hrgt : v2 < (r : ℚ) + 1 := hfb.2
  have hA : r ≤ milli * 1000 := by
    by_contra hcon
    push_neg at hcon
    have hcast : ((milli * 1000 + 1 : ℕ) : ℚ) ≤ (r : ℚ) := by exact_mod_cast hcon
    push_cast at hcast
    linarith
  have hB : milli * 1000 ≤ r + 1 := by
    by_contra hcon
    push_neg at hcon
    have hcast : ((r + 2 : ℕ) : ℚ) ≤ ((milli * 1000 : ℕ) : ℚ) := by
      exact_mod_cast hcon
    push_cast at hcast
    linarith
  rw [hdef, abs_le]
  constructor
  · omega
  · omega

/-- C9 witness: the f64 directive path at 251.000 MHz is within 1 Hz of
251 000 000. -/
theorem config_f64_within_one_hz_witness :
    100000 ≤ 251000 ∧ 251000 ≤ 399999 ∧
    |(configMhzToHz 251000 : ℤ) - (251000 : ℤ) * 1000| ≤ 1 :=
  ⟨by norm_num, by norm_num,
    config_f64_within_one_hz 251000 (by norm_num) (by norm_num)⟩

/-- C10: during mission extraction each airfield yields at most one
ATIS station — building a station removes the airfield from the map.
Hence (i) every ATIS station corresponds to an airfield of the terrain
data (a directive naming no airfield is silently dropped), (ii) the
produced station names are pairwise distinct (a second directive naming
an already-claimed airfield produces no station), and (iii) for an
airfield with a briefing-extracted frequency, the unique station
carrying its name is the briefing-built one — the briefing frequency
takes precedence over any unit-name ATIS directive. -/
theorem airfield_claimed_once {V : Type} (default_voice : V)
    (parse : String → Option (StationConfig V))
    (freqs : List (String × StationConfig V)) (units : List MissionUnit)
    (airfields : List (String × Airfield))
    (hA : (airfields.map Prod.fst).Nodup) (hF : (freqs.map Prod.fst).Nodup)
    (res : List (Station V))
    (hres : res = extractAtisStations default_voice parse freqs units airfields) :
    (∀ s ∈ res, s.name ∈ airfields.map Prod.fst) ∧
    (res.map Station.name).Nodup ∧
    (∀ name cfg, freqs.lookup name = some cfg → name ∈ airfields.map Prod.fst →
      ∃ af, mkStationFromBriefing default_voice name cfg af ∈ res ∧
        ∀ t ∈ res, t.name = name
          → t = mkStationFromBriefing default_voice name cfg af) := by
  have hexp : extractAtisStations default_voice parse freqs units airfields
      = (claimStations (fun (p : String × StationConfig V) af =>
            mkStationFromBriefing default_voice p.1 p.2 af) Prod.fst
            freqs airfields).1
        ++ (claimStations (fun (p : MissionUnit × StationConfig V) af =>
            mkStationFromUnit default_voice p.1 p.2 af) (fun p => p.2.name)
            (units.filterMap (fun u => (parse u.name).map (fun c => (u, c))))
            (claimStations (fun (p : String × StationConfig V) af =>
              mkStationFromBriefing default_voice p.1 p.2 af) Prod.fst
              freqs airfields).2).1 := rfl
  rw [hexp] at hres
  subst hres
  set P1 := claimStations (fun (p : String × StationConfig V) af =>
      mkStationFromBriefing default_voice p.1 p.2 af) Prod.fst freqs airfields
    with hP1
  set P2 := claimStations (fun (p : MissionUnit × StationConfig V) af =>
      mkStationFromUnit default_voice p.1 p.2 af) (fun p => p.2.name)
      (units.filterMap (fun u => (parse u.name).map (fun c => (u, c)))) P1.2
    with hP2
  have H1 := claimStations_nodup
    (fun (p : String × StationConfig V) af =>
      mkStationFromBriefing default_voice p.1 p.2 af) Prod.fst
    (fun b af => rfl) freqs airfields hA
  rw [← hP1] at H1
  have hm1 : ((P1.2).map Prod.fst).Nodup := H1.1.of_append_right
  have H2 := claimStations_nodup
    (fun (p : MissionUnit × StationConfig V) af =>
      mkStationFromUnit default_voice p.1 p.2 af) (fun p => p.2.name)
    (fun b af => rfl)
    (units.filterMap (fun u => (parse u.name).map (fun c => (u, c)))) P1.2 hm1
  rw [← hP2] at H2
  have hsub1 := claimStations_sublist
    (fun (p : String × StationConfig V) af =>
      mkStationFromBriefing default_voice p.1 p.2 af) Prod.fst freqs airfields
  rw [← hP1] at hsub1
  have hpart1 : ∀ s ∈ P1.1 ++ P2.1, s.name ∈ airfields.map Prod.fst := by
    intro s hs
    rcases List.mem_append.mp hs with h | h
    · exact H1.2 s h
    · exact (hsub1.map Prod.fst).subset (H2.2 s h)
  have hpart2 : ((P1.1 ++ P2.1).map Station.name).Nodup := by
    rw [List.map_append]
    apply List.Nodup.append H1.1.of_append_left H2.1.of_append_left
    intro x hx1 hx2
    have hdisj := List.disjoint_of_nodup_append H1.1
    obtain ⟨s, hs, rfl⟩ := List.mem_map.mp hx2
    exact hdisj hx1 (H2.2 s hs)
  refine ⟨hpart1, hpart2, ?_⟩
  intro name cfg hlk hmem
  have hb : (name, cfg) ∈ freqs := lookup_mem hlk
  have hhit := claimStations_hits
    (fun (p : String × StationConfig V) af =>
      mkStationFromBriefing default_voice p.1 p.2 af) Prod.fst
    freqs airfields hF (name, cfg) hb hmem
  rw [← hP1] at hhit
  obtain ⟨af, haf⟩ := hhit
  have hafm : mkStationFromBriefing default_voice name cfg af ∈ P1.1 ++ P2.1 :=
    List.mem_append_left _ haf
  refine ⟨af, hafm, ?_⟩
  intro t ht htn
  have hinj := List.inj_on_of_nodup_map hpart2
  have hnames : t.name = (mkStationFromBriefing default_voice name cfg af).name := by
    rw [htn]
    rfl
  exact hinj ht hafm hnames

/-- C10 witness: one briefing frequency, one matching airfield, no
units — the station list has pairwise-distinct names and the briefing
station for the claimed airfield is present and unique. -/
theorem airfield_claimed_once_witness :
    ∃ af, mkStationFromBriefing "gc" "Batumi"
        ⟨"Batumi", 131500000, none, none⟩ af
      ∈ extractAtisStations "gc" (fun _ => none)
          [("Batumi", ⟨"Batumi", 131500000, none, none⟩)] []
          [("Batumi", ⟨"Batumi", 0, 0, 0, [], none, 0⟩)] := by
  obtain ⟨-, -, h3⟩ := airfield_claimed_once "gc" (fun _ => none)
    [("Batumi", ⟨"Batumi", 131500000, none, none⟩)] []
    [("Batumi", ⟨"Batumi", 0, 0, 0, [], none, 0⟩)]
    (by simp) (by simp) _ rfl
  obtain ⟨af, hmem, -⟩ := h3 "Batumi" ⟨"Batumi", 131500000, none, none⟩
    (by rfl) (by simp)
  exact ⟨af, hmem⟩

end DATIS
